import Mathlib

/-!
Verification of the EVM cross-chain arbitrage dashboard backend (Rust).

Shallow embedding of the parts of the source the claims refer to:
* `src/bot/models/pool/v2/v2.rs`   (UniswapV2Pool: output/input quoting,
  stable-curve get_y Newton iteration, apply_swap)
* `src/bot/models/pool/v3/v3.rs`   (UniswapV3Pool: apply_swap_internal)
* `src/bot/models/path/registry.rs` (MultichainPathRegistry / PathRegistry)
* `src/bot/models/pool/registry.rs` (PoolRegistry)

Machine integers: the Rust code computes on alloy `U256` (the ruint crate).
We model a `U256` value as a `Nat` smaller than `2^256`; the ruint binary
operators wrap modulo `2^256` (release-build semantics), `saturating_mul`
saturates at `2^256 - 1`, and division is Euclidean `Nat` division.
Division by zero panics in ruint; the embedding returns 0 there, and every
settled statement either avoids such inputs or makes the divisor concrete
and non-zero.  Addresses are modelled as `Nat`.
-/

deriving instance DecidableEq for Except

namespace ArbBot

/-- Embeds `2^256`, the modulus of alloy `U256` arithmetic. -/
def U256LIM : Nat := 2 ^ 256

/-- Wrapping interpretation of a `Nat` as a `U256` value. -/
def wrap (n : Nat) : Nat := n % U256LIM

/-- Embeds `U256` addition (wraps on overflow, release semantics). -/
def uadd (a b : Nat) : Nat := (a + b) % U256LIM

/-- Embeds `U256` subtraction (wraps on underflow, release semantics);
arguments are assumed `< 2^256`. -/
def usub (a b : Nat) : Nat := (U256LIM + a - b) % U256LIM

/-- Embeds `U256` multiplication (wraps on overflow, release semantics). -/
def umul (a b : Nat) : Nat := (a * b) % U256LIM

/-- Embeds `U256::saturating_mul`. -/
def satMul (a b : Nat) : Nat := min (a * b) (U256LIM - 1)

/-- Embeds `FEE_DENOMINATOR` from `v2.rs`. -/
def FEE_DENOMINATOR : Nat := 1000000

/-- Embeds `EXP18` from `v2.rs` (`UniswapV2Pool::exp18`). -/
def EXP18 : Nat := 1000000000000000000

/-- Embeds `V2PoolType` from `v2.rs`. -/
inductive V2PoolType where
  | uniswapV2
  | stable
deriving DecidableEq, Repr

/-- Embeds `UniswapV2Pool` from `v2.rs` (timestamp bookkeeping fields carried as
plain data; `address`/token addresses modelled as `Nat`). -/
structure UniswapV2Pool where
  pool_type : V2PoolType
  address : Nat
  token0 : Nat
  token1 : Nat
  decimals0 : Nat
  decimals1 : Nat
  reserve0 : Nat
  reserve1 : Nat
  fee : Nat
  last_updated : Nat
  created_at : Nat
deriving DecidableEq, Repr

namespace UniswapV2Pool

/-- Embeds `UniswapV2Pool::is_valid`. -/
def is_valid (p : UniswapV2Pool) : Bool :=
  p.reserve0 ≠ 0 && p.reserve1 ≠ 0

/-- Embeds `UniswapV2Pool::k` (the pool method; decimals-normalized invariant for
stable pools, plain product otherwise). -/
def kfun (p : UniswapV2Pool) (x y : Nat) : Nat :=
  if p.pool_type = V2PoolType.stable then
    let _x := umul x EXP18 / p.decimals0
    let _y := umul y EXP18 / p.decimals1
    let _a := umul _x _y / EXP18
    let _b := uadd (umul _x _x / EXP18) (umul _y _y / EXP18)
    umul _a _b / EXP18
  else
    umul x y

/-- Embeds `UniswapV2Pool::f` (static; the stable invariant at 18-decimal scale). -/
def f (x0 y : Nat) : Nat :=
  let _a := umul x0 y / EXP18
  let _b := uadd (umul x0 x0 / EXP18) (umul y y / EXP18)
  umul _a _b / EXP18

/-- Embeds `UniswapV2Pool::d` (static; derivative-like quantity used by `get_y`). -/
def d (x0 y : Nat) : Nat :=
  uadd (umul (umul 3 x0) (umul y y / EXP18) / EXP18)
       (umul (umul x0 x0 / EXP18) x0 / EXP18)

/-- One-iteration-at-a-time embedding of the `for _ in 0..255` loop of
`UniswapV2Pool::get_y`; the fuel argument counts remaining iterations.
Division by zero (a ruint panic) is modelled as 0. -/
def getYAux (p : UniswapV2Pool) (x0 xy : Nat) : Nat → Nat → Except String Nat
  | 0, _ => .error "!y"
  | fuel + 1, y =>
    let k := f x0 y
    if k < xy then
      let dy := umul (usub xy k) EXP18 / d x0 y
      if dy = 0 then
        if k = xy then .ok y
        else if xy < p.kfun x0 (uadd y 1) then .ok (uadd y 1)
        else getYAux p x0 xy fuel (uadd y 1)
      else getYAux p x0 xy fuel (uadd y dy)
    else
      let dy := umul (usub k xy) EXP18 / d x0 y
      if dy = 0 then
        if k = xy ∨ f x0 (usub y 1) < xy then .ok y
        else getYAux p x0 xy fuel (usub y 1)
      else getYAux p x0 xy fuel (usub y dy)

/-- Embeds `UniswapV2Pool::get_y` (255-iteration Newton solve). -/
def get_y (p : UniswapV2Pool) (x0 xy y : Nat) : Except String Nat :=
  getYAux p x0 xy 255 y

/-- Embeds `UniswapV2Pool::calculate_output_0_to_1`. -/
def calculate_output_0_to_1 (p : UniswapV2Pool) (amount_in : Nat) :
    Except String Nat :=
  if amount_in = 0 then .error "Input amount cannot be zero"
  else if ¬ p.is_valid then .error "Pool reserves are invalid"
  else
    match p.pool_type with
    | V2PoolType.uniswapV2 =>
      let amount_in_with_fee := satMul amount_in (usub FEE_DENOMINATOR p.fee)
      let numerator := umul amount_in_with_fee p.reserve1
      let denominator := uadd (umul p.reserve0 FEE_DENOMINATOR) amount_in_with_fee
      let output := numerator / denominator
      if p.reserve1 ≤ output then .error "Insufficient liquidity for swap"
      else .ok output
    | V2PoolType.stable =>
      let amount_in_with_fee :=
        satMul amount_in (usub FEE_DENOMINATOR p.fee) / FEE_DENOMINATOR
      let xy := p.kfun p.reserve0 p.reserve1
      let reserve0 := umul p.reserve0 EXP18 / p.decimals0
      let reserve1 := umul p.reserve1 EXP18 / p.decimals1
      let amount_in_parsed := umul amount_in_with_fee EXP18 / p.decimals0
      match p.get_y (uadd amount_in_parsed reserve0) xy reserve1 with
      | .error e => .error e
      | .ok ynew => .ok (umul (usub reserve1 ynew) p.decimals1 / EXP18)

/-- Embeds `UniswapV2Pool::calculate_output_1_to_0`. -/
def calculate_output_1_to_0 (p : UniswapV2Pool) (amount_in : Nat) :
    Except String Nat :=
  if amount_in = 0 then .error "Input amount cannot be zero"
  else if ¬ p.is_valid then .error "Pool reserves are invalid"
  else
    match p.pool_type with
    | V2PoolType.uniswapV2 =>
      let amount_in_with_fee := satMul amount_in (usub FEE_DENOMINATOR p.fee)
      let numerator := umul amount_in_with_fee p.reserve0
      let denominator := uadd (umul p.reserve1 FEE_DENOMINATOR) amount_in_with_fee
      let output := numerator / denominator
      if p.reserve0 ≤ output then .error "Insufficient liquidity for swap"
      else .ok output
    | V2PoolType.stable =>
      let amount_in_with_fee :=
        satMul amount_in (usub FEE_DENOMINATOR p.fee) / FEE_DENOMINATOR
      let xy := p.kfun p.reserve0 p.reserve1
      let reserve0 := umul p.reserve0 EXP18 / p.decimals0
      let reserve1 := umul p.reserve1 EXP18 / p.decimals1
      let amount_in_parsed := umul amount_in_with_fee EXP18 / p.decimals1
      match p.get_y (uadd amount_in_parsed reserve1) xy reserve0 with
      | .error e => .error e
      | .ok ynew => .ok (umul (usub reserve0 ynew) p.decimals0 / EXP18)

/-- Embeds `UniswapV2Pool::calculate_input_0_to_1`. -/
def calculate_input_0_to_1 (p : UniswapV2Pool) (amount_out : Nat) :
    Except String Nat :=
  if amount_out = 0 then .error "Output amount cannot be zero"
  else if ¬ p.is_valid then .error "Pool reserves are invalid"
  else if p.reserve1 ≤ amount_out then .error "Insufficient liquidity for swap"
  else
    let numerator := umul (umul p.reserve0 amount_out) FEE_DENOMINATOR
    let denominator := umul (usub p.reserve1 amount_out) (usub FEE_DENOMINATOR p.fee)
    .ok (uadd (numerator / denominator) 1)

/-- Embeds `UniswapV2Pool::calculate_input_1_to_0`. -/
def calculate_input_1_to_0 (p : UniswapV2Pool) (amount_out : Nat) :
    Except String Nat :=
  if amount_out = 0 then .error "Output amount cannot be zero"
  else if ¬ p.is_valid then .error "Pool reserves are invalid"
  else if p.reserve0 ≤ amount_out then .error "Insufficient liquidity for swap"
  else
    let numerator := umul (umul p.reserve1 amount_out) FEE_DENOMINATOR
    let denominator := umul (usub p.reserve0 amount_out) (usub FEE_DENOMINATOR p.fee)
    .ok (uadd (numerator / denominator) 1)

/-- Embeds `PoolInterface::calculate_output` for `UniswapV2Pool`. -/
def calculate_output (p : UniswapV2Pool) (token_in amount_in : Nat) :
    Except String Nat :=
  if token_in = p.token0 then p.calculate_output_0_to_1 amount_in
  else if token_in = p.token1 then p.calculate_output_1_to_0 amount_in
  else .error "Token not in pool"

/-- Embeds `PoolInterface::calculate_input` for `UniswapV2Pool`. -/
def calculate_input (p : UniswapV2Pool) (token_out amount_out : Nat) :
    Except String Nat :=
  if token_out = p.token0 then p.calculate_input_1_to_0 amount_out
  else if token_out = p.token1 then p.calculate_input_0_to_1 amount_out
  else .error "Token not in pool"

/-- Embeds `PoolInterface::apply_swap` for `UniswapV2Pool`; `now` stands for the
wall-clock timestamp read inside the method. -/
def apply_swap (p : UniswapV2Pool) (token_in amount_in amount_out now : Nat) :
    Except String UniswapV2Pool :=
  if token_in = p.token0 then
    if p.reserve1 ≤ amount_out then .error "Insufficient liquidity for swap"
    else .ok { p with
      reserve0 := uadd p.reserve0 amount_in,
      reserve1 := usub p.reserve1 amount_out,
      last_updated := now }
  else if token_in = p.token1 then
    if p.reserve0 ≤ amount_out then .error "Insufficient liquidity for swap"
    else .ok { p with
      reserve1 := uadd p.reserve1 amount_in,
      reserve0 := usub p.reserve0 amount_out,
      last_updated := now }
  else .error "Token not in pool"

end UniswapV2Pool

/-! ### V3 pools (`src/bot/models/pool/v3/v3.rs`) -/

/-- Embeds `V3PoolType` from `v3.rs`. -/
inductive V3PoolType where
  | uniswapV3
  | pancakeV3
  | algebraV3
  | ramsesV2
  | algebraTwoSideFee
  | algebraPoolFeeInState
deriving DecidableEq, Repr

/-- Modelled from the spec: the `Tick` struct lives in the absent
`pool/v3/mod.rs`; its fields `liquidity_net : i128` and
`liquidity_gross : u128` are the ones `v3.rs` reads and writes. -/
structure Tick where
  liquidity_net : Int
  liquidity_gross : Nat
deriving DecidableEq, Repr

/-- Embeds `TickMap` (a `BTreeMap<i32, Tick>` in the absent `pool/v3/mod.rs`),
modelled as an association list keyed by the tick index. -/
abbrev TickMap : Type := List (Int × Tick)

/-- Embeds `UniswapV3Pool` from `v3.rs`. -/
structure UniswapV3Pool where
  pool_type : V3PoolType
  address : Nat
  token0 : Nat
  token1 : Nat
  fee : Nat
  tick_spacing : Int
  sqrt_price_x96 : Nat
  tick : Int
  liquidity : Nat
  ticks : TickMap
  ratio_conversion_factor : Nat
  factory : Nat
  last_updated : Nat
  created_at : Nat
deriving DecidableEq, Repr

namespace UniswapV3Pool

/-- Embeds `PoolInterface::contains_token` for `UniswapV3Pool`. -/
def contains_token (p : UniswapV3Pool) (token : Nat) : Bool :=
  token = p.token0 || token = p.token1

/-- Embeds `UniswapV3Pool::apply_swap_internal` (also `PoolInterface::apply_swap`,
which merely delegates to it); `now` stands for the wall-clock timestamp.
The Rust method mutates `last_updated` first and only then checks the
token, so the timestamp is touched even on the error path. -/
def apply_swap_internal (p : UniswapV3Pool)
    (token_in _amount_in _amount_out now : Nat) :
    Except String Unit × UniswapV3Pool :=
  let p1 := { p with last_updated := now }
  if ¬ p1.contains_token token_in then
    (.error "Token not in pool", p1)
  else
    (.ok (), p1)

end UniswapV3Pool

/-! ### Association-list maps

`HashMap`/`BTreeMap` state is embedded as an insertion-ordered association
list; `minsert` replaces the value at an existing key in place, mirroring
`HashMap::insert` overwriting semantics.  Lookup-level results are
independent of Rust hash-iteration order; the statements below only ever
depend on lookups or on error results that are order-insensitive. -/

section AssocMap

variable {K V : Type} [DecidableEq K]

/-- Lookup in an association list. -/
def mlookup : List (K × V) → K → Option V
  | [], _ => none
  | (k, v) :: rest, key => if key = k then some v else mlookup rest key

/-- Insert-or-replace (the semantics of `HashMap::insert`). -/
def minsert : List (K × V) → K → V → List (K × V)
  | [], key, val => [(key, val)]
  | (k, v) :: rest, key, val =>
    if key = k then (k, val) :: rest else (k, v) :: minsert rest key val

/-- Remove a key (the semantics of `HashMap::remove` on the represented
map: every binding for the key disappears). -/
def mremove : List (K × V) → K → List (K × V)
  | [], _ => []
  | (k, v) :: rest, key =>
    if k = key then mremove rest key else (k, v) :: mremove rest key

/-- Key membership (`HashMap::contains_key`). -/
def mcontains (m : List (K × V)) (key : K) : Bool :=
  (mlookup m key).isSome

end AssocMap

/-! ### Path registry (`src/bot/models/path/registry.rs`) -/

/-- Embeds `PoolDirection` from `registry.rs` (addresses as `Nat`). -/
structure PoolDirection where
  pool : Nat
  token_in : Nat
  token_out : Nat
deriving DecidableEq, Repr

/-- Embeds `PoolPath` (`Vec<PoolDirection>`). -/
abbrev PoolPath := List PoolDirection

/-- Embeds `SingleChainPathsWithAnchorToken` from `registry.rs`. -/
structure SingleChainPathsWithAnchorToken where
  paths : List PoolPath
  chain_id : Nat
  anchor_token : Nat
deriving DecidableEq, Repr

/-- The data a `PathRegistry` caches per pool: the source-chain path set and
the path sets on the other chains. -/
abbrev PathCacheEntry :=
  SingleChainPathsWithAnchorToken × List SingleChainPathsWithAnchorToken

/-- The `paths_cache` map of one `PathRegistry`. -/
abbrev PathCache := List (Nat × PathCacheEntry)

/-- The registry-of-registries state of `MultichainPathRegistry`
(chain id to the `PathRegistry` cache of that chain). -/
structure MultichainState where
  registries : List (Nat × PathCache)
deriving DecidableEq, Repr

/-- Placeholder hop used where Rust would panic on `first().unwrap()` of an
empty path; settled statements only reach it through concrete data or
exclude empty paths by hypothesis. -/
def defaultHop : PoolDirection := ⟨0, 0, 0⟩

/-- The connectivity loop of `MultichainPathRegistry::set_paths`:
`if len >= 2 { for i in 0..len - 2 { .. } }`, checking
`single_path[i].token_out == single_path[i + 1].token_in`. -/
def connectivityLoopOk (sp : PoolPath) : Bool :=
  if 2 ≤ sp.length then
    (List.range (sp.length - 2)).all fun i =>
      ((sp.getD i defaultHop).token_out = (sp.getD (i + 1) defaultHop).token_in : Bool)
  else
    true

/-- Validation done for one path inside the loop of
`MultichainPathRegistry::set_paths`: anchor-token check, then the
connectivity loop. -/
def validateSinglePath (anchor : Nat) (sp : PoolPath) : Except String Unit :=
  if (sp.headD defaultHop).token_in ≠ anchor then
    .error "First token in path is not the anchor token"
  else if ¬ connectivityLoopOk sp then
    .error "Path is not valid"
  else
    .ok ()

/-- Validation of all paths of one chain entry (the whole
`for single_path in &path.paths` loop, writes excluded). -/
def validatePaths (anchor : Nat) : List PoolPath → Except String Unit
  | [] => .ok ()
  | sp :: rest =>
    match validateSinglePath anchor sp with
    | .error e => .error e
    | .ok () => validatePaths anchor rest

/-- The `pool_to_path` grouping built by the same loop: paths grouped by
the pool of their first hop, insertion-ordered, later paths appended. -/
def groupByFirstPool (paths : List PoolPath) : List (Nat × List PoolPath) :=
  paths.foldl
    (fun m sp =>
      let pool := (sp.headD defaultHop).pool
      match mlookup m pool with
      | none => m ++ [(pool, [sp])]
      | some ps => minsert m pool (ps ++ [sp]))
    []

/-- Embeds `PathRegistry::set_paths`: reject empty source or target path sets,
otherwise overwrite the cache entry for the pool. -/
def PathRegistry.setPaths (cache : PathCache) (pool : Nat)
    (source_path : SingleChainPathsWithAnchorToken)
    (target_paths : List SingleChainPathsWithAnchorToken) :
    Except String PathCache :=
  if source_path.paths = [] ∨ target_paths = [] then .error "Path is empty"
  else .ok (minsert cache pool (source_path, target_paths))

/-- Embeds `PathRegistry::get_paths_for_pool` reached through
`MultichainPathRegistry::get_paths_for_pool`; a missing chain registry is
a Rust `unwrap` panic, modelled as `none`. -/
def getPathsForPool (st : MultichainState) (chain_id pool : Nat) :
    Option PathCacheEntry :=
  match mlookup st.registries chain_id with
  | none => none
  | some cache => mlookup cache pool

/-- The per-pool write loop at the end of one iteration of
`MultichainPathRegistry::set_paths`: writes happen one pool at a time and
earlier writes persist if a later one errors. -/
def writePools (chain_id anchor : Nat)
    (other_paths : List SingleChainPathsWithAnchorToken) :
    MultichainState → List (Nat × List PoolPath) →
    MultichainState × Option String
  | st, [] => (st, none)
  | st, (pool, ps) :: rest =>
    match mlookup st.registries chain_id with
    | none => (st, some "panic: chain registry missing")
    | some cache =>
      match PathRegistry.setPaths cache pool ⟨ps, chain_id, anchor⟩ other_paths with
      | .error e => (st, some e)
      | .ok cache2 =>
        writePools chain_id anchor other_paths
          ⟨minsert st.registries chain_id cache2⟩ rest

/-- One iteration of the `for path in &paths` loop of
`MultichainPathRegistry::set_paths`: validate and group the paths of
this entry, look up the registry of the chain (`unwrap`), filter the
batch down to the entries of other chains, then write per-pool groups. -/
def processEntry (batch : List SingleChainPathsWithAnchorToken)
    (st : MultichainState) (e : SingleChainPathsWithAnchorToken) :
    MultichainState × Option String :=
  match validatePaths e.anchor_token e.paths with
  | .error msg => (st, some msg)
  | .ok () =>
    match mlookup st.registries e.chain_id with
    | none => (st, some "panic: chain registry missing")
    | some _ =>
      let other_paths := batch.filter fun p => p.chain_id ≠ e.chain_id
      writePools e.chain_id e.anchor_token other_paths st
        (groupByFirstPool e.paths)

/-- The entry loop of `MultichainPathRegistry::set_paths`; an error stops
the loop but the writes already performed persist (the Rust registries
are shared mutable state behind `Arc<RwLock<..>>`). -/
def msetPathsAux (batch : List SingleChainPathsWithAnchorToken) :
    MultichainState → List SingleChainPathsWithAnchorToken →
    MultichainState × Option String
  | st, [] => (st, none)
  | st, e :: rest =>
    match processEntry batch st e with
    | (st2, none) => msetPathsAux batch st2 rest
    | (st2, some msg) => (st2, some msg)

/-- Embeds `MultichainPathRegistry::set_paths`. -/
def msetPaths (st : MultichainState)
    (batch : List SingleChainPathsWithAnchorToken) :
    MultichainState × Option String :=
  msetPathsAux batch st batch

/-! ### Pool registry (`src/bot/models/pool/registry.rs`) -/

/-- Embeds `PoolType` from `pool/base` as used by the registry maps. -/
inductive PoolType where
  | uniswapV2
  | uniswapV3
deriving DecidableEq, Repr

/-- The projection of a `Box<dyn PoolInterface>` the registry actually
consults: its address and its `pool_type()`. -/
structure RegistryPool where
  address : Nat
  pool_type : PoolType
deriving DecidableEq, Repr

/-- The mutable state of `PoolRegistry`: the `by_address` and `by_type`
maps (the other fields do not participate in the claims below). -/
structure PoolRegistryState where
  by_address : List (Nat × RegistryPool)
  by_type : List (PoolType × List Nat)
deriving DecidableEq, Repr

namespace PoolRegistryState

/-- Embeds `PoolRegistry::add_pool`: insert into `by_address`, push the address
onto the `by_type` entry (created when absent). -/
def addPool (st : PoolRegistryState) (p : RegistryPool) : PoolRegistryState :=
  { by_address := minsert st.by_address p.address p,
    by_type :=
      match mlookup st.by_type p.pool_type with
      | none => minsert st.by_type p.pool_type [p.address]
      | some addrs => minsert st.by_type p.pool_type (addrs ++ [p.address]) }

/-- Embeds `PoolRegistry::remove_pool`: drop from `by_address`; retain all other
addresses in the type list of the removed pool, dropping the list when empty. -/
def removePool (st : PoolRegistryState) (address : Nat) :
    PoolRegistryState × Option RegistryPool :=
  match mlookup st.by_address address with
  | none => (st, none)
  | some pool =>
    let ba := mremove st.by_address address
    let bt :=
      match mlookup st.by_type pool.pool_type with
      | none => st.by_type
      | some addrs =>
        let addrs2 := addrs.filter fun a => a ≠ address
        if addrs2 = [] then mremove st.by_type pool.pool_type
        else minsert st.by_type pool.pool_type addrs2
    (⟨ba, bt⟩, some pool)

/-- Embeds `PoolRegistry::exists_pool`. -/
def existsPool (st : PoolRegistryState) (address : Nat) : Bool :=
  mcontains st.by_address address

/-- Embeds `PoolRegistry::get_addresses_by_type`. -/
def getAddressesByType (st : PoolRegistryState) (pt : PoolType) : List Nat :=
  (mlookup st.by_type pt).getD []

/-- Embeds `PoolRegistry::get_pools_by_type`: the address list of the type filtered
through `by_address` lookups. -/
def getPoolsByType (st : PoolRegistryState) (pt : PoolType) :
    List RegistryPool :=
  (getAddressesByType st pt).filterMap fun a => mlookup st.by_address a

end PoolRegistryState

/-! ### Concrete fixtures used by the claim theorems -/

/-- A concrete constant-product pool with reserves (1000, 1000) and fee
3000, used by claims about the V2 quoting math. -/
def samplePool : UniswapV2Pool :=
  { pool_type := V2PoolType.uniswapV2
    address := 500
    token0 := 1
    token1 := 2
    decimals0 := EXP18
    decimals1 := EXP18
    reserve0 := 1000
    reserve1 := 1000
    fee := 3000
    last_updated := 0
    created_at := 0 }

/-- Embeds `by_address` coherence: every stored pool is keyed by its own address,
which holds for every state the Rust registry can reach since `add_pool`
inserts at `pool.address()`. -/
def PoolRegistryState.wellFormed (st : PoolRegistryState) : Prop :=
  ∀ a q, mlookup st.by_address a = some q → q.address = a

/-- A 3-hop path whose only connectivity violation sits between its last
two hops (token_out 30 of hop 1 vs token_in 40 of hop 2). -/
def c4Path : PoolPath := [⟨100, 10, 20⟩, ⟨101, 20, 30⟩, ⟨102, 40, 10⟩]

/-- A two-chain batch carrying `c4Path` on chain 1 plus a valid chain-2
entry (so the other-chains list is non-empty on both sides). -/
def c4Batch : List SingleChainPathsWithAnchorToken :=
  [⟨[c4Path], 1, 10⟩, ⟨[[⟨200, 11, 21⟩]], 2, 11⟩]

/-- A multichain state with (empty) registries for chains 1 and 2. -/
def c4State : MultichainState := ⟨[(1, []), (2, [])]⟩

/-- A valid chain-1 entry: one 1-hop path starting at its anchor token. -/
def c5EntryA : SingleChainPathsWithAnchorToken := ⟨[[⟨100, 10, 20⟩]], 1, 10⟩

/-- An invalid chain-2 entry: its path starts at token 99, not at the
declared anchor token 11. -/
def c5EntryB : SingleChainPathsWithAnchorToken := ⟨[[⟨200, 99, 21⟩]], 2, 11⟩

/-- A multichain state with (empty) registries for chains 1 and 2. -/
def c5State : MultichainState := ⟨[(1, []), (2, [])]⟩

/-- Chain-1 path of the first call, through pool 100. -/
def c7PathX : PoolPath := [⟨100, 10, 20⟩]

/-- Chain-1 path of the second call, through the same pool 100. -/
def c7PathY : PoolPath := [⟨100, 10, 30⟩]

/-- A valid chain-2 companion entry shared by both calls. -/
def c7Other : SingleChainPathsWithAnchorToken := ⟨[[⟨300, 11, 21⟩]], 2, 11⟩

/-- A multichain state with (empty) registries for chains 1 and 2. -/
def c7State : MultichainState := ⟨[(1, []), (2, [])]⟩

/-- The state after a first successful `set_paths` call mapping pool 100. -/
def c7St1 : MultichainState :=
  (msetPaths c7State [⟨[c7PathX], 1, 10⟩, c7Other]).1

/-- A multichain state with an (empty) registry for chain 1 only. -/
def c10State : MultichainState := ⟨[(1, [])]⟩

/-- A fee-0 constant-product pool with reserves (3, 3). -/
def c3PoolZeroFee : UniswapV2Pool :=
  ⟨V2PoolType.uniswapV2, 500, 1, 2, EXP18, EXP18, 3, 3, 0, 0, 0⟩

/-- A fee-3000 constant-product pool whose reserve0 sits 2 below the
`U256` modulus, so `reserve0 += amount_in` wraps to 0. -/
def c3PoolBig : UniswapV2Pool :=
  ⟨V2PoolType.uniswapV2, 500, 1, 2, EXP18, EXP18, 2 ^ 256 - 2, 10, 3000, 0, 0⟩

/-- The constant-product pool (1000, 1000) with fee 3000 used by the C1
counterexample: a 1-wei input quotes output 0. -/
def c1PoolA : UniswapV2Pool :=
  ⟨V2PoolType.uniswapV2, 500, 1, 2, EXP18, EXP18, 1000, 1000, 3000, 0, 0⟩

/-- The fee-0 pool (1, 100) used by the C1 counterexample: inputs 50 and
51 both quote output 98, so the inverse quote of 98 is 50 < 51. -/
def c1PoolB : UniswapV2Pool :=
  ⟨V2PoolType.uniswapV2, 500, 1, 2, EXP18, EXP18, 1, 100, 0, 0, 0⟩

/-- A stable pool with 18-decimal tokens (`decimals0 = decimals1 = 1e18`,
where the pool method `k` coincides with the static `f`). -/
def c2Pool18 : UniswapV2Pool :=
  ⟨V2PoolType.stable, 500, 1, 2, EXP18, EXP18, 1000, 1000, 3000, 0, 0⟩

/-- A stable pool with 0-decimal tokens (`decimals0 = decimals1 = 1`,
where the pool method `k` inflates values far beyond `f`). -/
def c2Pool0 : UniswapV2Pool :=
  ⟨V2PoolType.stable, 500, 1, 2, 1, 1, 1000, 1000, 3000, 0, 0⟩

/-! ### Association-list map lemmas -/

section AssocMapLemmas

variable {K V : Type} [DecidableEq K]

theorem mlookup_minsert (m : List (K × V)) (k : K) (v : V) :
    mlookup (minsert m k v) k = some v := by
  induction m with
  | nil => simp [minsert, mlookup]
  | cons hd tl ih =>
    obtain ⟨k0, v0⟩ := hd
    by_cases h : k = k0
    · simp [minsert, mlookup, h]
    · simp [minsert, mlookup, h, ih]

theorem mlookup_minsert_ne (m : List (K × V)) (k k' : K) (v : V)
    (h : k' ≠ k) : mlookup (minsert m k v) k' = mlookup m k' := by
  induction m with
  | nil => simp [minsert, mlookup, h]
  | cons hd tl ih =>
    obtain ⟨k0, v0⟩ := hd
    by_cases hk : k = k0
    · subst hk
      simp [minsert, mlookup, h]
    · by_cases hk' : k' = k0
      · simp [minsert, mlookup, hk, hk']
      · simp [minsert, mlookup, hk, hk', ih]

theorem mlookup_mremove (m : List (K × V)) (k : K) :
    mlookup (mremove m k) k = none := by
  induction m with
  | nil => simp [mremove, mlookup]
  | cons hd tl ih =>
    obtain ⟨k0, v0⟩ := hd
    by_cases h : k0 = k
    · simp [mremove, h, ih]
    · simp [mremove, mlookup, h, Ne.symm h, ih]

theorem mlookup_mremove_ne (m : List (K × V)) (k k' : K) (h : k' ≠ k) :
    mlookup (mremove m k) k' = mlookup m k' := by
  induction m with
  | nil => simp [mremove, mlookup]
  | cons hd tl ih =>
    obtain ⟨k0, v0⟩ := hd
    by_cases hk : k0 = k
    · subst hk
      simp [mremove, mlookup, h, ih]
    · by_cases hk' : k' = k0
      · simp [mremove, mlookup, hk, hk']
      · simp [mremove, mlookup, hk, hk', ih]

end AssocMapLemmas

/-! ### Claim theorems -/


/-- C6: for a V2 constant-product pool with reserves (1000, 1000) and fee
3000 over 1,000,000, `calculate_output(token0, 100)` returns exactly 90,
which is `floor(100*997000*1000 / (1000*1000000 + 100*997000))`. -/
theorem c6_calculate_output_concrete :
    samplePool.calculate_output 1 100 = .ok 90 ∧
    100 * 997000 * 1000 / (1000 * 1000000 + 100 * 997000) = 90 := by
  exact ⟨rfl, rfl⟩

/-- C9: on a V3 pool, `apply_swap` with a token that is in the pool
returns `Ok` and modifies nothing but the `last_updated` timestamp:
`sqrt_price_x96`, `tick`, `liquidity`, `ticks`, `fee` and the tokens are
untouched for any `amount_in` and `amount_out`. -/
theorem c9_v3_apply_swap_noop (p : UniswapV3Pool)
    (token_in amount_in amount_out now : Nat)
    (h : token_in = p.token0 ∨ token_in = p.token1) :
    (p.apply_swap_internal token_in amount_in amount_out now).1 = .ok () ∧
    (p.apply_swap_internal token_in amount_in amount_out now).2 =
      { p with last_updated := now } := by
  unfold UniswapV3Pool.apply_swap_internal UniswapV3Pool.contains_token
  rcases h with h | h <;> simp [h]

/-- Witness for C9 at a concrete pool and token. -/
theorem c9_v3_apply_swap_noop_witness :
    ((⟨V3PoolType.uniswapV3, 7, 11, 12, 500, 60, 2 ^ 96, 0, 1000, [],
        1, 9, 42, 41⟩ : UniswapV3Pool).apply_swap_internal 11 5 3 99).1
      = .ok () ∧
    ((⟨V3PoolType.uniswapV3, 7, 11, 12, 500, 60, 2 ^ 96, 0, 1000, [],
        1, 9, 42, 41⟩ : UniswapV3Pool).apply_swap_internal 11 5 3 99).2
      = ⟨V3PoolType.uniswapV3, 7, 11, 12, 500, 60, 2 ^ 96, 0, 1000, [],
        1, 9, 99, 41⟩ :=
  c9_v3_apply_swap_noop
    ⟨V3PoolType.uniswapV3, 7, 11, 12, 500, 60, 2 ^ 96, 0, 1000, [], 1, 9, 42, 41⟩
    11 5 3 99 (Or.inl rfl)


/-- C8: after `add_pool(p)` followed by `remove_pool(p.address)`,
`exists_pool(p.address)` is false and neither `get_addresses_by_type` nor
`get_pools_by_type` for the type of `p` mentions the address of `p`. -/
theorem c8_add_remove_pool (st : PoolRegistryState) (p : RegistryPool)
    (hwf : st.wellFormed) :
    ((st.addPool p).removePool p.address).1.existsPool p.address = false ∧
    p.address ∉
      ((st.addPool p).removePool p.address).1.getAddressesByType p.pool_type ∧
    ∀ q ∈ ((st.addPool p).removePool p.address).1.getPoolsByType p.pool_type,
      q.address ≠ p.address := by
  have hlook : mlookup (st.addPool p).by_address p.address = some p := by
    unfold PoolRegistryState.addPool
    exact mlookup_minsert _ _ _
  have hbt :
      ∃ addrs, mlookup (st.addPool p).by_type p.pool_type = some addrs := by
    unfold PoolRegistryState.addPool
    cases mlookup st.by_type p.pool_type with
    | none => exact ⟨[p.address], mlookup_minsert _ _ _⟩
    | some addrs => exact ⟨addrs ++ [p.address], mlookup_minsert _ _ _⟩
  obtain ⟨addrs, haddrs⟩ := hbt
  have hrem :
      ((st.addPool p).removePool p.address).1 =
        ⟨mremove (st.addPool p).by_address p.address,
          if addrs.filter (fun a => a ≠ p.address) = [] then
            mremove (st.addPool p).by_type p.pool_type
          else
            minsert (st.addPool p).by_type p.pool_type
              (addrs.filter fun a => a ≠ p.address)⟩ := by
    unfold PoolRegistryState.removePool
    simp only [hlook, haddrs]
  have haddr_gone :
      mlookup ((st.addPool p).removePool p.address).1.by_address p.address
        = none := by
    rw [hrem]
    exact mlookup_mremove _ _
  have hmem :
      ∀ a, a ∈ ((st.addPool p).removePool p.address).1.getAddressesByType
        p.pool_type → a ≠ p.address := by
    intro a ha
    rw [hrem] at ha
    unfold PoolRegistryState.getAddressesByType at ha
    by_cases hemp : addrs.filter (fun a => a ≠ p.address) = []
    · rw [if_pos hemp] at ha
      rw [show mlookup
            (mremove (st.addPool p).by_type p.pool_type) p.pool_type = none
          from mlookup_mremove _ _] at ha
      simp at ha
    · rw [if_neg hemp] at ha
      rw [mlookup_minsert] at ha
      simp only [Option.getD_some] at ha
      have := List.of_mem_filter ha
      simpa using this
  refine ⟨?_, ?_, ?_⟩
  · unfold PoolRegistryState.existsPool mcontains
    rw [haddr_gone]
    rfl
  · intro hmem2
    exact hmem p.address hmem2 rfl
  · intro q hq
    unfold PoolRegistryState.getPoolsByType at hq
    rw [List.mem_filterMap] at hq
    obtain ⟨a, ha, hqa⟩ := hq
    have hane := hmem a ha
    have hq_addr : q.address = a := by
      rw [hrem] at hqa
      simp only at hqa
      rw [mlookup_mremove_ne _ _ _ hane] at hqa
      unfold PoolRegistryState.addPool at hqa
      simp only at hqa
      rw [mlookup_minsert_ne _ _ _ _ hane] at hqa
      exact hwf a q hqa
    rw [hq_addr]
    exact hane

/-- Witness for C8 on a concrete registry holding two pools. -/
theorem c8_add_remove_pool_witness :
    (((⟨[(5, ⟨5, PoolType.uniswapV3⟩)], [(PoolType.uniswapV3, [5])]⟩ :
        PoolRegistryState).addPool
          ⟨9, PoolType.uniswapV2⟩).removePool 9).1.existsPool 9 = false ∧
    (9 : Nat) ∉
      (((⟨[(5, ⟨5, PoolType.uniswapV3⟩)], [(PoolType.uniswapV3, [5])]⟩ :
        PoolRegistryState).addPool
          ⟨9, PoolType.uniswapV2⟩).removePool 9).1.getAddressesByType
        PoolType.uniswapV2 ∧
    ∀ q ∈ (((⟨[(5, ⟨5, PoolType.uniswapV3⟩)], [(PoolType.uniswapV3, [5])]⟩ :
        PoolRegistryState).addPool
          ⟨9, PoolType.uniswapV2⟩).removePool 9).1.getPoolsByType
        PoolType.uniswapV2,
      q.address ≠ 9 :=
  c8_add_remove_pool
    ⟨[(5, ⟨5, PoolType.uniswapV3⟩)], [(PoolType.uniswapV3, [5])]⟩
    ⟨9, PoolType.uniswapV2⟩
    (by
      intro a q h
      unfold mlookup at h
      by_cases h5 : a = 5
      · subst h5
        simp at h
        rw [← h]
      · simp [h5, mlookup] at h)

/-! ### Helper lemmas about the path registry -/

theorem connectivityLoopOk_iff (sp : PoolPath) :
    connectivityLoopOk sp = true ↔
      ∀ i < sp.length - 2,
        (sp.getD i defaultHop).token_out = (sp.getD (i + 1) defaultHop).token_in := by
  unfold connectivityLoopOk
  by_cases h : 2 ≤ sp.length
  · simp [h, List.all_eq_true, List.mem_range]
  · simp only [if_neg h]
    constructor
    · intro _ i hi
      omega
    · intro _
      trivial

theorem validateSinglePath_ok_iff (anchor : Nat) (sp : PoolPath) :
    validateSinglePath anchor sp = .ok () ↔
      ((sp.headD defaultHop).token_in = anchor ∧
        ∀ i < sp.length - 2,
          (sp.getD i defaultHop).token_out = (sp.getD (i + 1) defaultHop).token_in) := by
  unfold validateSinglePath
  by_cases h1 : (sp.headD defaultHop).token_in = anchor
  · rw [if_neg (fun hc : _ ≠ anchor => hc h1)]
    by_cases h2 : connectivityLoopOk sp = true
    · rw [if_neg (not_not_intro h2)]
      exact iff_of_true rfl ⟨h1, (connectivityLoopOk_iff sp).mp h2⟩
    · rw [if_pos h2]
      exact iff_of_false (by simp)
        (fun hc => h2 ((connectivityLoopOk_iff sp).mpr hc.2))
  · rw [if_pos h1]
    exact iff_of_false (by simp) (fun hc => h1 hc.1)

theorem validatePaths_ne_ok_of_anchor (anchor : Nat) (paths : List PoolPath)
    (sp : PoolPath) (hsp : sp ∈ paths)
    (h : (sp.headD defaultHop).token_in ≠ anchor) :
    validatePaths anchor paths ≠ .ok () := by
  induction paths with
  | nil => cases hsp
  | cons hd tl ih =>
    rcases List.mem_cons.mp hsp with hhd | htl
    · subst hhd
      unfold validatePaths validateSinglePath
      rw [if_pos h]
      simp
    · unfold validatePaths
      cases hv : validateSinglePath anchor hd with
      | error e => simp
      | ok u =>
        cases u
        exact ih htl

theorem processEntry_invalid (batch : List SingleChainPathsWithAnchorToken)
    (st : MultichainState) (e : SingleChainPathsWithAnchorToken)
    (h : validatePaths e.anchor_token e.paths ≠ .ok ()) :
    ∃ msg, processEntry batch st e = (st, some msg) := by
  unfold processEntry
  cases hv : validatePaths e.anchor_token e.paths with
  | error msg => exact ⟨msg, rfl⟩
  | ok u =>
    cases u
    exact absurd hv h

theorem msetPathsAux_isSome_of_invalid
    (batch l : List SingleChainPathsWithAnchorToken) (st : MultichainState)
    (h : ∃ e ∈ l, validatePaths e.anchor_token e.paths ≠ .ok ()) :
    ((msetPathsAux batch st l).2).isSome := by
  revert h
  induction l generalizing st with
  | nil =>
    intro h
    obtain ⟨e, he, _⟩ := h
    cases he
  | cons hd tl ih =>
    intro h
    by_cases hhd : validatePaths hd.anchor_token hd.paths = .ok ()
    · have h2 : ∃ e ∈ tl, validatePaths e.anchor_token e.paths ≠ .ok () := by
        obtain ⟨e, he, hne⟩ := h
        rcases List.mem_cons.mp he with rfl | htl
        · exact absurd hhd hne
        · exact ⟨e, htl, hne⟩
      unfold msetPathsAux
      cases hp : processEntry batch st hd with
      | mk st2 r =>
        cases r with
        | none => simpa using ih st2 h2
        | some msg => simp
    · obtain ⟨msg, hp⟩ := processEntry_invalid batch st hd hhd
      unfold msetPathsAux
      rw [hp]
      simp

theorem minsert_ne_nil {K V : Type} [DecidableEq K]
    (m : List (K × V)) (k : K) (v : V) : minsert m k v ≠ [] := by
  cases m with
  | nil => simp [minsert]
  | cons hd tl =>
    obtain ⟨k0, v0⟩ := hd
    unfold minsert
    by_cases h : k = k0 <;> simp [h]

theorem groupByFirstPool_ne_nil (paths : List PoolPath) (h : paths ≠ []) :
    groupByFirstPool paths ≠ [] := by
  have step : ∀ (l : List PoolPath) (acc : List (Nat × List PoolPath)),
      acc ≠ [] →
      l.foldl (fun m sp =>
        match mlookup m ((sp.headD defaultHop).pool) with
        | none => m ++ [((sp.headD defaultHop).pool, [sp])]
        | some ps => minsert m ((sp.headD defaultHop).pool) (ps ++ [sp])) acc
        ≠ [] := by
    intro l
    induction l with
    | nil => intro acc hacc; exact hacc
    | cons sp rest ih =>
      intro acc hacc
      simp only [List.foldl_cons]
      apply ih
      cases hm : mlookup acc ((sp.headD defaultHop).pool) with
      | none => simp
      | some ps => exact minsert_ne_nil _ _ _
  cases paths with
  | nil => exact absurd rfl h
  | cons sp rest =>
    unfold groupByFirstPool
    simp only [List.foldl_cons]
    apply step
    cases hm : mlookup ([] : List (Nat × List PoolPath))
        ((sp.headD defaultHop).pool) with
    | none => simp
    | some ps => exact minsert_ne_nil _ _ _

theorem writePools_empty_target (chain_id anchor : Nat)
    (st : MultichainState) (groups : List (Nat × List PoolPath))
    (hg : groups ≠ []) (hreg : mcontains st.registries chain_id) :
    writePools chain_id anchor [] st groups = (st, some "Path is empty") := by
  cases groups with
  | nil => exact absurd rfl hg
  | cons hd rest =>
    obtain ⟨pool, ps⟩ := hd
    obtain ⟨cache, hcache⟩ := Option.isSome_iff_exists.mp hreg
    have hset : PathRegistry.setPaths cache pool ⟨ps, chain_id, anchor⟩ [] =
        .error "Path is empty" := by
      unfold PathRegistry.setPaths
      rw [if_pos (Or.inr rfl)]
    unfold writePools
    simp only [hcache, hset]

theorem filter_ne_chain_nil (batch : List SingleChainPathsWithAnchorToken)
    (c : Nat) (hbatch : ∀ e ∈ batch, e.chain_id = c) :
    batch.filter (fun p => p.chain_id ≠ c) = [] := by
  induction batch with
  | nil => rfl
  | cons hd tl ih =>
    have hhd := hbatch hd (List.mem_cons_self hd tl)
    simp only [List.filter_cons]
    rw [if_neg (by simp [hhd])]
    exact ih fun e he => hbatch e (List.mem_cons_of_mem hd he)

theorem msetPathsAux_single_chain (c : Nat)
    (batch l : List SingleChainPathsWithAnchorToken) (st : MultichainState)
    (hbatch : ∀ e ∈ batch, e.chain_id = c)
    (hl : ∀ e ∈ l, e.chain_id = c)
    (hreg : mcontains st.registries c)
    (hex : ∃ e ∈ l, e.paths ≠ []) :
    (msetPathsAux batch st l).1 = st ∧ ((msetPathsAux batch st l).2).isSome := by
  revert hl hex
  induction l generalizing st with
  | nil =>
    intro _ hex
    obtain ⟨e, he, _⟩ := hex
    cases he
  | cons hd tl ih =>
    intro hl hex
    have hchain : hd.chain_id = c := hl hd (List.mem_cons_self hd tl)
    by_cases hv : validatePaths hd.anchor_token hd.paths = .ok ()
    · obtain ⟨cache, hcache⟩ := Option.isSome_iff_exists.mp hreg
      by_cases hemp : hd.paths = []
      · have hpe : processEntry batch st hd = (st, none) := by
          unfold processEntry
          simp only [hv, hchain, hcache, hemp]
          rfl
        unfold msetPathsAux
        rw [hpe]
        refine ih st hreg (fun e he => hl e (List.mem_cons_of_mem hd he)) ?_
        obtain ⟨e, he, hne⟩ := hex
        rcases List.mem_cons.mp he with rfl | htl
        · exact absurd hemp hne
        · exact ⟨e, htl, hne⟩
      · have hpe : processEntry batch st hd = (st, some "Path is empty") := by
          unfold processEntry
          simp only [hv, hchain, hcache]
          rw [filter_ne_chain_nil batch c hbatch]
          exact writePools_empty_target c hd.anchor_token st
            (groupByFirstPool hd.paths) (groupByFirstPool_ne_nil hd.paths hemp)
            hreg
        unfold msetPathsAux
        rw [hpe]
        exact ⟨rfl, rfl⟩
    · obtain ⟨msg, hp⟩ := processEntry_invalid batch st hd hv
      unfold msetPathsAux
      rw [hp]
      exact ⟨rfl, rfl⟩

/-! ### C4 -/


/-- C4: the connectivity loop `for i in 0..len-2` validates only the hop
pairs `(0,1)` through `(n-3,n-2)`: a path passes validation iff its first
token matches the anchor and every pair below index `len - 2` is adjacent,
and a batch whose only violation is between the last two hops of a path is
accepted by `set_paths`, not rejected. -/
theorem c4_connectivity_skips_last_pair :
    (∀ (anchor : Nat) (sp : PoolPath),
      validateSinglePath anchor sp = .ok () ↔
        ((sp.headD defaultHop).token_in = anchor ∧
          ∀ i < sp.length - 2,
            (sp.getD i defaultHop).token_out =
              (sp.getD (i + 1) defaultHop).token_in)) ∧
    (c4Path.getD 1 defaultHop).token_out ≠ (c4Path.getD 2 defaultHop).token_in ∧
    (msetPaths c4State c4Batch).2 = none :=
  ⟨validateSinglePath_ok_iff, by decide, rfl⟩

/-- Witness for C4: the validation characterization instantiated at the
violating concrete path, which indeed passes validation. -/
theorem c4_connectivity_skips_last_pair_witness :
    validateSinglePath 10 c4Path = .ok () ↔
      ((c4Path.headD defaultHop).token_in = 10 ∧
        ∀ i < c4Path.length - 2,
          (c4Path.getD i defaultHop).token_out =
            (c4Path.getD (i + 1) defaultHop).token_in) :=
  c4_connectivity_skips_last_pair.1 10 c4Path

/-! ### C5 -/


/-- C5 counterexample: a batch whose second entry fails the anchor check
makes `set_paths` return an error, yet the paths of the first entry are
already stored: the chain-1 cache is not left as it was (the claimed
nothing-partially-stored guarantee fails). -/
theorem c5_not_atomic_counterexample :
    ((msetPaths c5State [c5EntryA, c5EntryB]).2).isSome ∧
    (msetPaths c5State [c5EntryA, c5EntryB]).1 ≠ c5State ∧
    getPathsForPool (msetPaths c5State [c5EntryA, c5EntryB]).1 1 100 =
      some (⟨[[⟨100, 10, 20⟩]], 1, 10⟩, [c5EntryB]) :=
  ⟨rfl, by decide, rfl⟩

/-- C5 amended: under the no-panic side conditions (a registry exists for
the chain of every entry and every path has at least one hop), a failed
validation makes `set_paths` return an error, and when the failing entry
is the first of the batch nothing at all has been stored; entries
processed before a later failing entry, however, remain stored
(atomicity holds per entry, not per batch). -/
theorem c5_error_abort_per_entry (st : MultichainState)
    (batch : List SingleChainPathsWithAnchorToken)
    (hreg : ∀ e ∈ batch, mcontains st.registries e.chain_id)
    (hpaths : ∀ e ∈ batch, ∀ sp ∈ e.paths, sp ≠ []) :
    ((∃ e ∈ batch, validatePaths e.anchor_token e.paths ≠ .ok ()) →
      ((msetPaths st batch).2).isSome) ∧
    (∀ e rest, batch = e :: rest →
      validatePaths e.anchor_token e.paths ≠ .ok () →
      (msetPaths st batch).1 = st ∧ ((msetPaths st batch).2).isSome) := by
  constructor
  · intro h
    exact msetPathsAux_isSome_of_invalid batch batch st h
  · intro e rest hb hne
    subst hb
    obtain ⟨msg, hp⟩ := processEntry_invalid (e :: rest) st e hne
    unfold msetPaths msetPathsAux
    rw [hp]
    exact ⟨rfl, rfl⟩

/-- Witness for C5 amended: a batch whose first entry fails the anchor
check is rejected with the state unchanged. -/
theorem c5_error_abort_per_entry_witness :
    ((msetPaths c5State [c5EntryB]).2).isSome ∧
    (msetPaths c5State [c5EntryB]).1 = c5State :=
  ⟨(c5_error_abort_per_entry c5State [c5EntryB] (by decide) (by decide)).1
      ⟨c5EntryB, by decide, by decide⟩,
    ((c5_error_abort_per_entry c5State [c5EntryB] (by decide)
      (by decide)).2 c5EntryB [] rfl (by decide)).1⟩

/-! ### C7 -/


/-- C7: a batch containing a path whose first-hop token_in differs from
the anchor token of its entry makes `set_paths` return an error; and the
per-pool cache write is a wholesale `insert` overwrite, so after a second
successful call mapping the same pool, `get_paths_for_pool` returns only
only the paths of the second call. -/
theorem c7_anchor_reject_and_replace :
    (∀ (st : MultichainState) (batch : List SingleChainPathsWithAnchorToken),
      (∀ e ∈ batch, mcontains st.registries e.chain_id) →
      (∀ e ∈ batch, ∀ sp ∈ e.paths, sp ≠ []) →
      (∃ e ∈ batch, ∃ sp ∈ e.paths,
        (sp.headD defaultHop).token_in ≠ e.anchor_token) →
      ((msetPaths st batch).2).isSome) ∧
    (∀ (cache : PathCache) (pool : Nat)
      (src : SingleChainPathsWithAnchorToken)
      (tgt : List SingleChainPathsWithAnchorToken),
      src.paths ≠ [] → tgt ≠ [] →
      PathRegistry.setPaths cache pool src tgt =
        .ok (minsert cache pool (src, tgt)) ∧
      mlookup (minsert cache pool (src, tgt)) pool = some (src, tgt)) ∧
    ((msetPaths c7St1 [⟨[c7PathY], 1, 10⟩, c7Other]).2 = none ∧
      getPathsForPool (msetPaths c7St1 [⟨[c7PathY], 1, 10⟩, c7Other]).1 1 100 =
        some (⟨[c7PathY], 1, 10⟩, [c7Other])) := by
  refine ⟨?_, ?_, rfl, rfl⟩
  · intro st batch _ _ h
    obtain ⟨e, he, sp, hsp, hanchor⟩ := h
    exact msetPathsAux_isSome_of_invalid batch batch st
      ⟨e, he, validatePaths_ne_ok_of_anchor e.anchor_token e.paths sp hsp hanchor⟩
  · intro cache pool src tgt hsrc htgt
    have hcond : ¬ (src.paths = [] ∨ tgt = []) := by
      intro hc
      rcases hc with hc | hc
      · exact hsrc hc
      · exact htgt hc
    unfold PathRegistry.setPaths
    rw [if_neg hcond]
    exact ⟨rfl, mlookup_minsert cache pool (src, tgt)⟩

/-- Witness for C7: the anchor-violation rejection and the overwrite
semantics instantiated at concrete values. -/
theorem c7_anchor_reject_and_replace_witness :
    ((msetPaths ⟨[(2, [])]⟩ [⟨[[⟨200, 99, 21⟩]], 2, 11⟩]).2).isSome = true ∧
    (PathRegistry.setPaths [] 7 ⟨[[⟨7, 1, 2⟩]], 1, 1⟩ [⟨[], 2, 1⟩] =
      .ok [(7, (⟨[[⟨7, 1, 2⟩]], 1, 1⟩, [⟨[], 2, 1⟩]))] ∧
    mlookup [(7, ((⟨[[⟨7, 1, 2⟩]], 1, 1⟩ : SingleChainPathsWithAnchorToken),
        [(⟨[], 2, 1⟩ : SingleChainPathsWithAnchorToken)]))] 7 =
      some (⟨[[⟨7, 1, 2⟩]], 1, 1⟩, [⟨[], 2, 1⟩])) :=
  ⟨c7_anchor_reject_and_replace.1 ⟨[(2, [])]⟩ [⟨[[⟨200, 99, 21⟩]], 2, 11⟩]
      (by decide) (by decide) (by decide),
    c7_anchor_reject_and_replace.2.1 [] 7 ⟨[[⟨7, 1, 2⟩]], 1, 1⟩ [⟨[], 2, 1⟩]
      (by decide) (by decide)⟩

/-! ### C10 -/


/-- C10 counterexample: a single-chain batch whose only entry carries an
empty path list is accepted (`set_paths` returns no error), contradicting
the claim that every single-chain batch is rejected. -/
theorem c10_single_chain_counterexample :
    (∀ e ∈ [(⟨[], 1, 10⟩ : SingleChainPathsWithAnchorToken)], e.chain_id = 1) ∧
    msetPaths c10State [⟨[], 1, 10⟩] = (c10State, none) :=
  ⟨by decide, rfl⟩

/-- C10 amended: `PathRegistry::set_paths` errors whenever the source path
set or the other-chains path set is empty (storing nothing), and every
single-chain batch containing at least one entry with a non-empty path
list is rejected with every cache left unchanged; a single-chain batch
whose entries all carry empty path lists is accepted vacuously (still
storing nothing). -/
theorem c10_single_chain_rejected (st : MultichainState)
    (batch : List SingleChainPathsWithAnchorToken) (c : Nat) :
    (∀ (cache : PathCache) (pool : Nat)
      (src : SingleChainPathsWithAnchorToken)
      (tgt : List SingleChainPathsWithAnchorToken),
      (src.paths = [] ∨ tgt = []) →
      PathRegistry.setPaths cache pool src tgt = .error "Path is empty") ∧
    ((∀ e ∈ batch, e.chain_id = c) →
      mcontains st.registries c →
      (∀ e ∈ batch, ∀ sp ∈ e.paths, sp ≠ []) →
      (∃ e ∈ batch, e.paths ≠ []) →
      ((msetPaths st batch).2).isSome ∧ (msetPaths st batch).1 = st) := by
  constructor
  · intro cache pool src tgt hc
    unfold PathRegistry.setPaths
    rw [if_pos hc]
  · intro hbatch hreg _ hex
    have h := msetPathsAux_single_chain c batch batch st hbatch hbatch hreg hex
    exact ⟨h.2, h.1⟩

/-- Witness for C10 amended: a concrete single-chain batch with one
non-empty path set is rejected and stores nothing, and the inner
`set_paths` rejects an empty target list. -/
theorem c10_single_chain_rejected_witness :
    (PathRegistry.setPaths [] 9 ⟨[[⟨9, 5, 6⟩]], 3, 5⟩ [] =
      .error "Path is empty") ∧
    ((msetPaths ⟨[(3, [])]⟩ [⟨[[⟨40, 5, 6⟩]], 3, 5⟩]).2).isSome ∧
    (msetPaths ⟨[(3, [])]⟩ [⟨[[⟨40, 5, 6⟩]], 3, 5⟩]).1 = ⟨[(3, [])]⟩ :=
  ⟨(c10_single_chain_rejected ⟨[(3, [])]⟩ [⟨[[⟨40, 5, 6⟩]], 3, 5⟩] 3).1
      [] 9 ⟨[[⟨9, 5, 6⟩]], 3, 5⟩ [] (Or.inr rfl),
    ((c10_single_chain_rejected ⟨[(3, [])]⟩ [⟨[[⟨40, 5, 6⟩]], 3, 5⟩] 3).2
      (by decide) (by decide) (by decide) (by decide)).1,
    ((c10_single_chain_rejected ⟨[(3, [])]⟩ [⟨[[⟨40, 5, 6⟩]], 3, 5⟩] 3).2
      (by decide) (by decide) (by decide) (by decide)).2⟩

/-! ### U256 arithmetic under no-overflow side conditions -/

theorem U256LIM_pos : 0 < U256LIM := by
  unfold U256LIM
  positivity

theorem uadd_eq (a b : Nat) (h : a + b < U256LIM) : uadd a b = a + b :=
  Nat.mod_eq_of_lt h

theorem umul_eq (a b : Nat) (h : a * b < U256LIM) : umul a b = a * b :=
  Nat.mod_eq_of_lt h

theorem satMul_eq (a b : Nat) (h : a * b < U256LIM) : satMul a b = a * b := by
  unfold satMul
  exact Nat.min_eq_left (by omega)

theorem usub_eq (a b : Nat) (hba : b ≤ a) (ha : a < U256LIM) :
    usub a b = a - b := by
  unfold usub
  rw [show U256LIM + a - b = U256LIM + (a - b) from by omega,
    Nat.add_mod_left]
  exact Nat.mod_eq_of_lt (by omega)

/-- The fee factor `amount * (FEE_DENOMINATOR - fee)` fits in 256 bits for
amounts up to `2^150`. -/
theorem awf_fits (a fee : Nat) (ha : a ≤ 2 ^ 150) :
    a * (FEE_DENOMINATOR - fee) < U256LIM := by
  have h1 : a * (FEE_DENOMINATOR - fee) ≤ 2 ^ 150 * FEE_DENOMINATOR :=
    Nat.mul_le_mul ha (Nat.sub_le _ _)
  have h2 : (2:Nat) ^ 150 * FEE_DENOMINATOR < U256LIM := by
    unfold FEE_DENOMINATOR U256LIM
    norm_num
  omega

/-- Evaluation of the constant-product branch of
`calculate_output_0_to_1` when every intermediate product fits in 256
bits (reserves up to `2^64`, amount up to `2^150`, fee within the
denominator). -/
theorem calculate_output_0_to_1_eval (p : UniswapV2Pool) (a : Nat)
    (hpt : p.pool_type = V2PoolType.uniswapV2)
    (hfee : p.fee ≤ FEE_DENOMINATOR)
    (hr0 : p.reserve0 ≤ 2 ^ 64) (hr1 : p.reserve1 ≤ 2 ^ 64)
    (ha : a ≤ 2 ^ 150) (h0 : a ≠ 0)
    (hv0 : p.reserve0 ≠ 0) (hv1 : p.reserve1 ≠ 0) :
    p.calculate_output_0_to_1 a =
      if p.reserve1 ≤ a * (FEE_DENOMINATOR - p.fee) * p.reserve1 /
          (p.reserve0 * FEE_DENOMINATOR + a * (FEE_DENOMINATOR - p.fee)) then
        .error "Insufficient liquidity for swap"
      else
        .ok (a * (FEE_DENOMINATOR - p.fee) * p.reserve1 /
          (p.reserve0 * FEE_DENOMINATOR + a * (FEE_DENOMINATOR - p.fee))) := by
  have hval : p.is_valid = true := by
    unfold UniswapV2Pool.is_valid
    simp [hv0, hv1]
  have efee : usub FEE_DENOMINATOR p.fee = FEE_DENOMINATOR - p.fee :=
    usub_eq _ _ hfee (by unfold FEE_DENOMINATOR U256LIM; norm_num)
  have eawf : satMul a (FEE_DENOMINATOR - p.fee) =
      a * (FEE_DENOMINATOR - p.fee) :=
    satMul_eq _ _ (awf_fits a p.fee ha)
  have hawf_le : a * (FEE_DENOMINATOR - p.fee) ≤ 2 ^ 150 * FEE_DENOMINATOR :=
    Nat.mul_le_mul ha (Nat.sub_le _ _)
  have enum : umul (a * (FEE_DENOMINATOR - p.fee)) p.reserve1 =
      a * (FEE_DENOMINATOR - p.fee) * p.reserve1 := by
    apply umul_eq
    have h1 : a * (FEE_DENOMINATOR - p.fee) * p.reserve1 ≤
        2 ^ 150 * FEE_DENOMINATOR * 2 ^ 64 :=
      Nat.mul_le_mul hawf_le hr1
    have h2 : (2:Nat) ^ 150 * FEE_DENOMINATOR * 2 ^ 64 < U256LIM := by
      unfold FEE_DENOMINATOR U256LIM
      norm_num
    omega
  have er0D : umul p.reserve0 FEE_DENOMINATOR =
      p.reserve0 * FEE_DENOMINATOR := by
    apply umul_eq
    have h1 : p.reserve0 * FEE_DENOMINATOR ≤ 2 ^ 64 * FEE_DENOMINATOR :=
      Nat.mul_le_mul hr0 (le_refl _)
    have h2 : (2:Nat) ^ 64 * FEE_DENOMINATOR < U256LIM := by
      unfold FEE_DENOMINATOR U256LIM
      norm_num
    omega
  have eden : uadd (p.reserve0 * FEE_DENOMINATOR)
      (a * (FEE_DENOMINATOR - p.fee)) =
      p.reserve0 * FEE_DENOMINATOR + a * (FEE_DENOMINATOR - p.fee) := by
    apply uadd_eq
    have h1 : p.reserve0 * FEE_DENOMINATOR ≤ 2 ^ 64 * FEE_DENOMINATOR :=
      Nat.mul_le_mul hr0 (le_refl _)
    have h2 : a * (FEE_DENOMINATOR - p.fee) ≤ 2 ^ 150 * FEE_DENOMINATOR :=
      hawf_le
    have h3 : (2:Nat) ^ 64 * FEE_DENOMINATOR +
        2 ^ 150 * FEE_DENOMINATOR < U256LIM := by
      unfold FEE_DENOMINATOR U256LIM
      norm_num
    omega
  unfold UniswapV2Pool.calculate_output_0_to_1
  rw [if_neg h0, if_neg (not_not_intro hval)]
  simp only [hpt, efee, eawf, enum, er0D, eden]

/-- The constant-product invariant does not decrease across a swap whose
output is the floor of the fee-discounted quote, for any fee at most the
denominator. -/
theorem v2_product_core (r0 r1 fee a : Nat)
    (hfee : fee ≤ FEE_DENOMINATOR)
    (hlt : a * (FEE_DENOMINATOR - fee) * r1 /
      (r0 * FEE_DENOMINATOR + a * (FEE_DENOMINATOR - fee)) < r1) :
    r0 * r1 ≤ (r0 + a) *
      (r1 - a * (FEE_DENOMINATOR - fee) * r1 /
        (r0 * FEE_DENOMINATOR + a * (FEE_DENOMINATOR - fee))) := by
  set f := FEE_DENOMINATOR - fee with hf
  set M := r0 * FEE_DENOMINATOR + a * f with hM
  set out := a * f * r1 / M with hout
  have hxy : out ≤ r1 := le_of_lt hlt
  have h1 : out * M ≤ a * f * r1 := by
    rw [hout]
    exact Nat.div_mul_le_self _ _
  have hsplit : a * f * (r1 - out) + a * f * out = a * f * r1 := by
    rw [← Nat.mul_add, Nat.sub_add_cancel hxy]
  have h2 : out * (r0 * FEE_DENOMINATOR) + a * f * out ≤
      a * f * (r1 - out) + a * f * out := by
    have e1 : out * M = out * (r0 * FEE_DENOMINATOR) + a * f * out := by
      rw [hM]
      ring
    calc out * (r0 * FEE_DENOMINATOR) + a * f * out
        = out * M := e1.symm
      _ ≤ a * f * r1 := h1
      _ = a * f * (r1 - out) + a * f * out := hsplit.symm
  have h3 : out * (r0 * FEE_DENOMINATOR) ≤ a * f * (r1 - out) :=
    Nat.le_of_add_le_add_right h2
  have h4 : out * r0 * FEE_DENOMINATOR ≤
      a * (r1 - out) * FEE_DENOMINATOR := by
    calc out * r0 * FEE_DENOMINATOR
        = out * (r0 * FEE_DENOMINATOR) := by ring
      _ ≤ a * f * (r1 - out) := h3
      _ ≤ a * FEE_DENOMINATOR * (r1 - out) := by
          apply Nat.mul_le_mul_right
          exact Nat.mul_le_mul_left a (hf ▸ Nat.sub_le _ _)
      _ = a * (r1 - out) * FEE_DENOMINATOR := by ring
  have h5 : out * r0 ≤ a * (r1 - out) :=
    Nat.le_of_mul_le_mul_right h4 (by unfold FEE_DENOMINATOR; norm_num)
  calc r0 * r1 = r0 * (r1 - out) + out * r0 := by
        rw [Nat.mul_comm out r0, ← Nat.mul_add, Nat.sub_add_cancel hxy]
    _ ≤ r0 * (r1 - out) + a * (r1 - out) := Nat.add_le_add_left h5 _
    _ = (r0 + a) * (r1 - out) := (Nat.add_mul _ _ _).symm

/-- Mirror of `calculate_output_0_to_1_eval` for the token1 → token0
direction. -/
theorem calculate_output_1_to_0_eval (p : UniswapV2Pool) (a : Nat)
    (hpt : p.pool_type = V2PoolType.uniswapV2)
    (hfee : p.fee ≤ FEE_DENOMINATOR)
    (hr0 : p.reserve0 ≤ 2 ^ 64) (hr1 : p.reserve1 ≤ 2 ^ 64)
    (ha : a ≤ 2 ^ 150) (h0 : a ≠ 0)
    (hv0 : p.reserve0 ≠ 0) (hv1 : p.reserve1 ≠ 0) :
    p.calculate_output_1_to_0 a =
      if p.reserve0 ≤ a * (FEE_DENOMINATOR - p.fee) * p.reserve0 /
          (p.reserve1 * FEE_DENOMINATOR + a * (FEE_DENOMINATOR - p.fee)) then
        .error "Insufficient liquidity for swap"
      else
        .ok (a * (FEE_DENOMINATOR - p.fee) * p.reserve0 /
          (p.reserve1 * FEE_DENOMINATOR + a * (FEE_DENOMINATOR - p.fee))) := by
  have hval : p.is_valid = true := by
    unfold UniswapV2Pool.is_valid
    simp [hv0, hv1]
  have efee : usub FEE_DENOMINATOR p.fee = FEE_DENOMINATOR - p.fee :=
    usub_eq _ _ hfee (by unfold FEE_DENOMINATOR U256LIM; norm_num)
  have eawf : satMul a (FEE_DENOMINATOR - p.fee) =
      a * (FEE_DENOMINATOR - p.fee) :=
    satMul_eq _ _ (awf_fits a p.fee ha)
  have hawf_le : a * (FEE_DENOMINATOR - p.fee) ≤ 2 ^ 150 * FEE_DENOMINATOR :=
    Nat.mul_le_mul ha (Nat.sub_le _ _)
  have enum : umul (a * (FEE_DENOMINATOR - p.fee)) p.reserve0 =
      a * (FEE_DENOMINATOR - p.fee) * p.reserve0 := by
    apply umul_eq
    have h1 : a * (FEE_DENOMINATOR - p.fee) * p.reserve0 ≤
        2 ^ 150 * FEE_DENOMINATOR * 2 ^ 64 :=
      Nat.mul_le_mul hawf_le hr0
    have h2 : (2:Nat) ^ 150 * FEE_DENOMINATOR * 2 ^ 64 < U256LIM := by
      unfold FEE_DENOMINATOR U256LIM
      norm_num
    omega
  have er1D : umul p.reserve1 FEE_DENOMINATOR =
      p.reserve1 * FEE_DENOMINATOR := by
    apply umul_eq
    have h1 : p.reserve1 * FEE_DENOMINATOR ≤ 2 ^ 64 * FEE_DENOMINATOR :=
      Nat.mul_le_mul hr1 (le_refl _)
    have h2 : (2:Nat) ^ 64 * FEE_DENOMINATOR < U256LIM := by
      unfold FEE_DENOMINATOR U256LIM
      norm_num
    omega
  have eden : uadd (p.reserve1 * FEE_DENOMINATOR)
      (a * (FEE_DENOMINATOR - p.fee)) =
      p.reserve1 * FEE_DENOMINATOR + a * (FEE_DENOMINATOR - p.fee) := by
    apply uadd_eq
    have h1 : p.reserve1 * FEE_DENOMINATOR ≤ 2 ^ 64 * FEE_DENOMINATOR :=
      Nat.mul_le_mul hr1 (le_refl _)
    have h3 : (2:Nat) ^ 64 * FEE_DENOMINATOR +
        2 ^ 150 * FEE_DENOMINATOR < U256LIM := by
      unfold FEE_DENOMINATOR U256LIM
      norm_num
    omega
  unfold UniswapV2Pool.calculate_output_1_to_0
  rw [if_neg h0, if_neg (not_not_intro hval)]
  simp only [hpt, efee, eawf, enum, er1D, eden]

/-- An `Ok` result of `calculate_output_0_to_1` implies non-zero input and
valid reserves. -/
theorem calculate_output_0_to_1_ok_nonzero (p : UniswapV2Pool) (a out : Nat)
    (h : p.calculate_output_0_to_1 a = .ok out) :
    a ≠ 0 ∧ p.reserve0 ≠ 0 ∧ p.reserve1 ≠ 0 := by
  unfold UniswapV2Pool.calculate_output_0_to_1 at h
  by_cases h0 : a = 0
  · rw [if_pos h0] at h
    cases h
  · by_cases hval : p.is_valid = true
    · unfold UniswapV2Pool.is_valid at hval
      simp only [Bool.and_eq_true, decide_eq_true_eq, ne_eq] at hval
      exact ⟨h0, hval.1, hval.2⟩
    · rw [if_neg h0, if_pos hval] at h
      cases h

/-- An `Ok` result of `calculate_output_1_to_0` implies non-zero input and
valid reserves. -/
theorem calculate_output_1_to_0_ok_nonzero (p : UniswapV2Pool) (a out : Nat)
    (h : p.calculate_output_1_to_0 a = .ok out) :
    a ≠ 0 ∧ p.reserve0 ≠ 0 ∧ p.reserve1 ≠ 0 := by
  unfold UniswapV2Pool.calculate_output_1_to_0 at h
  by_cases h0 : a = 0
  · rw [if_pos h0] at h
    cases h
  · by_cases hval : p.is_valid = true
    · unfold UniswapV2Pool.is_valid at hval
      simp only [Bool.and_eq_true, decide_eq_true_eq, ne_eq] at hval
      exact ⟨h0, hval.1, hval.2⟩
    · rw [if_neg h0, if_pos hval] at h
      cases h

/-! ### C3 -/


/-- C3 counterexample: at fee 0 the reserve product strictly increases
(9 to 12), so it is not "exactly unchanged"; and with fee 3000 > 0 a
reserve overflow wraps `reserve0` to 0, so the product strictly
decreases — both with `calculate_output` succeeding. -/
theorem c3_counterexample :
    (c3PoolZeroFee.calculate_output 1 1 = .ok 0 ∧
      c3PoolZeroFee.apply_swap 1 1 0 5 =
        .ok ⟨V2PoolType.uniswapV2, 500, 1, 2, EXP18, EXP18, 4, 3, 0, 5, 0⟩ ∧
      c3PoolZeroFee.fee = 0 ∧ (4 * 3 : Nat) ≠ 3 * 3) ∧
    (c3PoolBig.calculate_output 1 2 = .ok 0 ∧
      c3PoolBig.apply_swap 1 2 0 5 =
        .ok ⟨V2PoolType.uniswapV2, 500, 1, 2, EXP18, EXP18, 0, 10, 3000, 5, 0⟩ ∧
      0 < c3PoolBig.fee ∧ (0 * 10 : Nat) < (2 ^ 256 - 2) * 10) :=
  ⟨⟨rfl, rfl, rfl, by decide⟩, ⟨rfl, rfl, by decide, by norm_num⟩⟩

/-- C3 amended: on a constant-product pool with fee at most the
denominator and reserves and amount small enough that no intermediate
product overflows 256 bits (here: at most `2^64`), a successful
`calculate_output` followed by `apply_swap` leaves the reserve product
non-decreasing — for every such fee, including fee 0, where the product
can strictly increase due to rounding but never decreases. -/
theorem c3_product_nondecreasing (p q : UniswapV2Pool)
    (token_in a out now : Nat)
    (hpt : p.pool_type = V2PoolType.uniswapV2)
    (hfee : p.fee ≤ FEE_DENOMINATOR)
    (hr0 : p.reserve0 ≤ 2 ^ 64) (hr1 : p.reserve1 ≤ 2 ^ 64) (ha : a ≤ 2 ^ 64)
    (hcalc : p.calculate_output token_in a = .ok out)
    (happ : p.apply_swap token_in a out now = .ok q) :
    p.reserve0 * p.reserve1 ≤ q.reserve0 * q.reserve1 := by
  have ha150 : a ≤ 2 ^ 150 := le_trans ha (by norm_num)
  unfold UniswapV2Pool.calculate_output at hcalc
  unfold UniswapV2Pool.apply_swap at happ
  by_cases ht0 : token_in = p.token0
  · rw [if_pos ht0] at hcalc happ
    obtain ⟨h0, hv0, hv1⟩ := calculate_output_0_to_1_ok_nonzero p a out hcalc
    rw [calculate_output_0_to_1_eval p a hpt hfee hr0 hr1 ha150 h0 hv0 hv1]
      at hcalc
    by_cases hguard : p.reserve1 ≤
        a * (FEE_DENOMINATOR - p.fee) * p.reserve1 /
          (p.reserve0 * FEE_DENOMINATOR + a * (FEE_DENOMINATOR - p.fee))
    · rw [if_pos hguard] at hcalc
      cases hcalc
    · rw [if_neg hguard] at hcalc
      cases hcalc
      rw [if_neg hguard] at happ
      cases happ
      have hlt := lt_of_not_le hguard
      have e0 : uadd p.reserve0 a = p.reserve0 + a :=
        uadd_eq _ _ (by
          have : (2:Nat) ^ 64 + 2 ^ 64 < U256LIM := by
            unfold U256LIM
            norm_num
          omega)
      have e1 : usub p.reserve1
          (a * (FEE_DENOMINATOR - p.fee) * p.reserve1 /
            (p.reserve0 * FEE_DENOMINATOR + a * (FEE_DENOMINATOR - p.fee))) =
          p.reserve1 -
            a * (FEE_DENOMINATOR - p.fee) * p.reserve1 /
              (p.reserve0 * FEE_DENOMINATOR +
                a * (FEE_DENOMINATOR - p.fee)) :=
        usub_eq _ _ (le_of_lt hlt) (by
          have : (2:Nat) ^ 64 < U256LIM := by
            unfold U256LIM
            norm_num
          omega)
      show p.reserve0 * p.reserve1 ≤ uadd p.reserve0 a * usub p.reserve1 _
      rw [e0, e1]
      exact v2_product_core p.reserve0 p.reserve1 p.fee a hfee hlt
  · by_cases ht1 : token_in = p.token1
    · rw [if_neg ht0, if_pos ht1] at hcalc happ
      obtain ⟨h0, hv0, hv1⟩ := calculate_output_1_to_0_ok_nonzero p a out hcalc
      rw [calculate_output_1_to_0_eval p a hpt hfee hr0 hr1 ha150 h0 hv0 hv1]
        at hcalc
      by_cases hguard : p.reserve0 ≤
          a * (FEE_DENOMINATOR - p.fee) * p.reserve0 /
            (p.reserve1 * FEE_DENOMINATOR + a * (FEE_DENOMINATOR - p.fee))
      · rw [if_pos hguard] at hcalc
        cases hcalc
      · rw [if_neg hguard] at hcalc
        cases hcalc
        rw [if_neg hguard] at happ
        cases happ
        have hlt := lt_of_not_le hguard
        have e0 : uadd p.reserve1 a = p.reserve1 + a :=
          uadd_eq _ _ (by
            have : (2:Nat) ^ 64 + 2 ^ 64 < U256LIM := by
              unfold U256LIM
              norm_num
            omega)
        have e1 : usub p.reserve0
            (a * (FEE_DENOMINATOR - p.fee) * p.reserve0 /
              (p.reserve1 * FEE_DENOMINATOR + a * (FEE_DENOMINATOR - p.fee))) =
            p.reserve0 -
              a * (FEE_DENOMINATOR - p.fee) * p.reserve0 /
                (p.reserve1 * FEE_DENOMINATOR +
                  a * (FEE_DENOMINATOR - p.fee)) :=
          usub_eq _ _ (le_of_lt hlt) (by
            have : (2:Nat) ^ 64 < U256LIM := by
              unfold U256LIM
              norm_num
            omega)
        show p.reserve0 * p.reserve1 ≤ usub p.reserve0 _ * uadd p.reserve1 a
        rw [e0, e1]
        have hcore := v2_product_core p.reserve1 p.reserve0 p.fee a hfee hlt
        calc p.reserve0 * p.reserve1 = p.reserve1 * p.reserve0 :=
              Nat.mul_comm _ _
          _ ≤ (p.reserve1 + a) *
              (p.reserve0 -
                a * (FEE_DENOMINATOR - p.fee) * p.reserve0 /
                  (p.reserve1 * FEE_DENOMINATOR +
                    a * (FEE_DENOMINATOR - p.fee))) := hcore
          _ = _ := Nat.mul_comm _ _
    · rw [if_neg ht0, if_neg ht1] at hcalc
      cases hcalc

/-- Witness for C3 amended at the fee-0 pool: the product does not
decrease across the swap. -/
theorem c3_product_nondecreasing_witness :
    c3PoolZeroFee.reserve0 * c3PoolZeroFee.reserve1 ≤
      (⟨V2PoolType.uniswapV2, 500, 1, 2, EXP18, EXP18, 4, 3, 0, 5, 0⟩ :
        UniswapV2Pool).reserve0 *
      (⟨V2PoolType.uniswapV2, 500, 1, 2, EXP18, EXP18, 4, 3, 0, 5, 0⟩ :
        UniswapV2Pool).reserve1 :=
  c3_product_nondecreasing c3PoolZeroFee
    ⟨V2PoolType.uniswapV2, 500, 1, 2, EXP18, EXP18, 4, 3, 0, 5, 0⟩
    1 1 0 5 rfl (by decide) (by decide) (by decide) (by decide) rfl rfl

/-! ### C1 -/

/-- Evaluation of `calculate_input_0_to_1` when the intermediates fit in
256 bits. -/
theorem calculate_input_0_to_1_eval (p : UniswapV2Pool) (out : Nat)
    (hfee : p.fee ≤ FEE_DENOMINATOR)
    (hr0 : p.reserve0 ≤ 2 ^ 64) (hr1 : p.reserve1 ≤ 2 ^ 64)
    (h0 : out ≠ 0) (hv0 : p.reserve0 ≠ 0) (hv1 : p.reserve1 ≠ 0)
    (hlt : out < p.reserve1) :
    p.calculate_input_0_to_1 out =
      .ok (p.reserve0 * out * FEE_DENOMINATOR /
        ((p.reserve1 - out) * (FEE_DENOMINATOR - p.fee)) + 1) := by
  have hval : p.is_valid = true := by
    unfold UniswapV2Pool.is_valid
    simp [hv0, hv1]
  have hout64 : out ≤ 2 ^ 64 := le_trans (le_of_lt hlt) hr1
  have er0out : umul p.reserve0 out = p.reserve0 * out := by
    apply umul_eq
    have h1 : p.reserve0 * out ≤ 2 ^ 64 * 2 ^ 64 := Nat.mul_le_mul hr0 hout64
    have h2 : (2:Nat) ^ 64 * 2 ^ 64 < U256LIM := by
      unfold U256LIM
      norm_num
    omega
  have enum : umul (p.reserve0 * out) FEE_DENOMINATOR =
      p.reserve0 * out * FEE_DENOMINATOR := by
    apply umul_eq
    have h1 : p.reserve0 * out * FEE_DENOMINATOR ≤
        2 ^ 64 * 2 ^ 64 * FEE_DENOMINATOR :=
      Nat.mul_le_mul (Nat.mul_le_mul hr0 hout64) (le_refl _)
    have h2 : (2:Nat) ^ 64 * 2 ^ 64 * FEE_DENOMINATOR < U256LIM := by
      unfold FEE_DENOMINATOR U256LIM
      norm_num
    omega
  have esub : usub p.reserve1 out = p.reserve1 - out :=
    usub_eq _ _ (le_of_lt hlt) (by
      have : (2:Nat) ^ 64 < U256LIM := by
        unfold U256LIM
        norm_num
      omega)
  have efee : usub FEE_DENOMINATOR p.fee = FEE_DENOMINATOR - p.fee :=
    usub_eq _ _ hfee (by unfold FEE_DENOMINATOR U256LIM; norm_num)
  have eden : umul (p.reserve1 - out) (FEE_DENOMINATOR - p.fee) =
      (p.reserve1 - out) * (FEE_DENOMINATOR - p.fee) := by
    apply umul_eq
    have h1 : (p.reserve1 - out) * (FEE_DENOMINATOR - p.fee) ≤
        2 ^ 64 * FEE_DENOMINATOR :=
      Nat.mul_le_mul (le_trans (Nat.sub_le _ _) hr1) (Nat.sub_le _ _)
    have h2 : (2:Nat) ^ 64 * FEE_DENOMINATOR < U256LIM := by
      unfold FEE_DENOMINATOR U256LIM
      norm_num
    omega
  have eadd : uadd (p.reserve0 * out * FEE_DENOMINATOR /
      ((p.reserve1 - out) * (FEE_DENOMINATOR - p.fee))) 1 =
      p.reserve0 * out * FEE_DENOMINATOR /
        ((p.reserve1 - out) * (FEE_DENOMINATOR - p.fee)) + 1 := by
    apply uadd_eq
    have h1 : p.reserve0 * out * FEE_DENOMINATOR /
        ((p.reserve1 - out) * (FEE_DENOMINATOR - p.fee)) ≤
        p.reserve0 * out * FEE_DENOMINATOR := Nat.div_le_self _ _
    have h2 : p.reserve0 * out * FEE_DENOMINATOR ≤
        2 ^ 64 * 2 ^ 64 * FEE_DENOMINATOR :=
      Nat.mul_le_mul (Nat.mul_le_mul hr0 hout64) (le_refl _)
    have h3 : (2:Nat) ^ 64 * 2 ^ 64 * FEE_DENOMINATOR + 1 < U256LIM := by
      unfold FEE_DENOMINATOR U256LIM
      norm_num
    omega
  unfold UniswapV2Pool.calculate_input_0_to_1
  rw [if_neg h0, if_neg (not_not_intro hval), if_neg (not_le.mpr hlt)]
  simp only [er0out, enum, esub, efee, eden, eadd]

/-- The rounded-up input quote always buys back at least the requested
output: with `input = floor(r0*out*D / ((r1-out)*f)) + 1`, the forward
quote `floor(input*f*r1 / (r0*D + input*f))` is at least `out` and still
below `r1`. -/
theorem v2_input_buys_back (r0 r1 f out : Nat)
    (hf : 0 < f) (hr0 : 0 < r0) (hlt : out < r1) :
    out ≤ (r0 * out * FEE_DENOMINATOR / ((r1 - out) * f) + 1) * f * r1 /
      (r0 * FEE_DENOMINATOR +
        (r0 * out * FEE_DENOMINATOR / ((r1 - out) * f) + 1) * f) ∧
    (r0 * out * FEE_DENOMINATOR / ((r1 - out) * f) + 1) * f * r1 /
      (r0 * FEE_DENOMINATOR +
        (r0 * out * FEE_DENOMINATOR / ((r1 - out) * f) + 1) * f) < r1 := by
  set X := r0 * out * FEE_DENOMINATOR with hX
  set m := (r1 - out) * f with hm_def
  set input := X / m + 1 with hinput
  set M := r0 * FEE_DENOMINATOR + input * f with hM
  have hDpos : 0 < FEE_DENOMINATOR := by unfold FEE_DENOMINATOR; norm_num
  have hm : 0 < m := by
    rw [hm_def]
    exact Nat.mul_pos (by omega) hf
  have hMpos : 0 < M := by
    rw [hM]
    have : 0 < r0 * FEE_DENOMINATOR := Nat.mul_pos hr0 hDpos
    omega
  have hXlt : X < input * m := by
    have hdm := Nat.div_add_mod X m
    have hmod := Nat.mod_lt X hm
    calc X = m * (X / m) + X % m := (Nat.div_add_mod X m).symm
      _ < m * (X / m) + m := by omega
      _ = (X / m + 1) * m := by ring
  have hNsplit : input * f * r1 = input * m + input * f * out := by
    rw [hm_def]
    have hr1e : r1 = (r1 - out) + out := (Nat.sub_add_cancel (le_of_lt hlt)).symm
    calc input * f * r1 = input * f * ((r1 - out) + out) := by rw [← hr1e]
      _ = input * ((r1 - out) * f) + input * f * out := by ring
  have hMsplit : out * M = X + input * f * out := by
    rw [hM, hX]
    ring
  have hkey : out * M < input * f * r1 := by
    rw [hMsplit, hNsplit]
    omega
  constructor
  · rw [Nat.le_div_iff_mul_le hMpos]
    exact le_of_lt hkey
  · rw [Nat.div_lt_iff_lt_mul hMpos]
    have e1 : input * f * r1 = r1 * (input * f) := by ring
    have e2 : r1 * M = r1 * (r0 * FEE_DENOMINATOR) + r1 * (input * f) := by
      rw [hM]
      ring
    have h3 : 0 < r1 * (r0 * FEE_DENOMINATOR) :=
      Nat.mul_pos (by omega) (Nat.mul_pos hr0 hDpos)
    omega


/-- C1 counterexample: with reserves (1000, 1000), fee 3000, amountIn 1,
`calculate_output` succeeds with output 0 and `calculate_input(token1, 0)`
fails; and with reserves (1, 100), fee 0, amountIn 51, the round trip
succeeds but returns 50 < 51: the claimed inequality
`calculate_input(calculate_output(amountIn)) ≥ amountIn` fails. -/
theorem c1_round_trip_counterexample :
    (c1PoolA.calculate_output 1 1 = .ok 0 ∧
      c1PoolA.calculate_input 2 0 = .error "Output amount cannot be zero") ∧
    (c1PoolB.calculate_output 1 51 = .ok 98 ∧
      c1PoolB.calculate_input 2 98 = .ok 50 ∧ (50 : Nat) < 51) :=
  ⟨⟨rfl, rfl⟩, ⟨rfl, rfl, by decide⟩⟩

/-- C1 amended: on a constant-product pool with distinct tokens, fee below
the denominator, and reserves and amount at most `2^64` (so nothing
overflows 256 bits), whenever `calculate_output(token0, amountIn)`
succeeds with a positive output `out`, `calculate_input(token1, out)`
succeeds and the input it returns buys back at least `out`:
`calculate_output(token0, input) ≥ out`.  (The stronger
`input ≥ amountIn` is false: several inputs share one output and
`calculate_input` quotes only enough for `out`.) -/
theorem c1_input_never_underpays (p : UniswapV2Pool) (a out : Nat)
    (hpt : p.pool_type = V2PoolType.uniswapV2)
    (htok : p.token0 ≠ p.token1)
    (hfee : p.fee < FEE_DENOMINATOR)
    (hr0 : p.reserve0 ≤ 2 ^ 64) (hr1 : p.reserve1 ≤ 2 ^ 64) (ha : a ≤ 2 ^ 64)
    (hcalc : p.calculate_output p.token0 a = .ok out) (hpos : 0 < out) :
    ∃ input out2,
      p.calculate_input p.token1 out = .ok input ∧
      p.calculate_output p.token0 input = .ok out2 ∧
      out ≤ out2 := by
  have hfee_le : p.fee ≤ FEE_DENOMINATOR := le_of_lt hfee
  have ha150 : a ≤ 2 ^ 150 := le_trans ha (by norm_num)
  -- extract out < reserve1 from the forward quote
  unfold UniswapV2Pool.calculate_output at hcalc
  rw [if_pos rfl] at hcalc
  obtain ⟨h0, hv0, hv1⟩ := calculate_output_0_to_1_ok_nonzero p a out hcalc
  rw [calculate_output_0_to_1_eval p a hpt hfee_le hr0 hr1 ha150 h0 hv0 hv1]
    at hcalc
  by_cases hguard : p.reserve1 ≤
      a * (FEE_DENOMINATOR - p.fee) * p.reserve1 /
        (p.reserve0 * FEE_DENOMINATOR + a * (FEE_DENOMINATOR - p.fee))
  · rw [if_pos hguard] at hcalc
    cases hcalc
  · rw [if_neg hguard] at hcalc
    cases hcalc
    have hlt := lt_of_not_le hguard
    set out := a * (FEE_DENOMINATOR - p.fee) * p.reserve1 /
      (p.reserve0 * FEE_DENOMINATOR + a * (FEE_DENOMINATOR - p.fee)) with hout
    -- the inverse quote
    have hinputEq : p.calculate_input p.token1 out =
        .ok (p.reserve0 * out * FEE_DENOMINATOR /
          ((p.reserve1 - out) * (FEE_DENOMINATOR - p.fee)) + 1) := by
      unfold UniswapV2Pool.calculate_input
      rw [if_neg (fun hc => htok hc.symm), if_pos rfl]
      exact calculate_input_0_to_1_eval p out hfee_le hr0 hr1
        (Nat.pos_iff_ne_zero.mp hpos) hv0 hv1 hlt
    set input := p.reserve0 * out * FEE_DENOMINATOR /
      ((p.reserve1 - out) * (FEE_DENOMINATOR - p.fee)) + 1 with hinput
    have hfpos : 0 < FEE_DENOMINATOR - p.fee := by omega
    have hbuys := v2_input_buys_back p.reserve0 p.reserve1
      (FEE_DENOMINATOR - p.fee) out hfpos (Nat.pos_of_ne_zero hv0) hlt
    -- input fits: input ≤ r0*out*D + 1 ≤ 2^150
    have hinput150 : input ≤ 2 ^ 150 := by
      have h1 : p.reserve0 * out * FEE_DENOMINATOR /
          ((p.reserve1 - out) * (FEE_DENOMINATOR - p.fee)) ≤
          p.reserve0 * out * FEE_DENOMINATOR := Nat.div_le_self _ _
      have h2 : p.reserve0 * out * FEE_DENOMINATOR ≤
          2 ^ 64 * 2 ^ 64 * FEE_DENOMINATOR :=
        Nat.mul_le_mul
          (Nat.mul_le_mul hr0 (le_trans (le_of_lt hlt) hr1)) (le_refl _)
      have h3 : (2:Nat) ^ 64 * 2 ^ 64 * FEE_DENOMINATOR + 1 ≤ 2 ^ 150 := by
        unfold FEE_DENOMINATOR
        norm_num
      omega
    have hinput0 : input ≠ 0 := by
      rw [hinput]
      exact Nat.succ_ne_zero _
    -- the forward quote of the inverse quote
    have hout2Eq : p.calculate_output p.token0 input =
        .ok (input * (FEE_DENOMINATOR - p.fee) * p.reserve1 /
          (p.reserve0 * FEE_DENOMINATOR +
            input * (FEE_DENOMINATOR - p.fee))) := by
      unfold UniswapV2Pool.calculate_output
      rw [if_pos rfl]
      rw [calculate_output_0_to_1_eval p input hpt hfee_le hr0 hr1
        hinput150 hinput0 hv0 hv1]
      rw [if_neg (not_le.mpr (by
        have := hbuys.2
        rw [← hinput] at this
        calc input * (FEE_DENOMINATOR - p.fee) * p.reserve1 /
            (p.reserve0 * FEE_DENOMINATOR +
              input * (FEE_DENOMINATOR - p.fee)) < p.reserve1 := this))]
    refine ⟨input, _, hinputEq, hout2Eq, ?_⟩
    have := hbuys.1
    rw [← hinput] at this
    exact this

/-- Witness for C1 amended at reserves (1000, 1000), fee 3000,
amountIn 100 (output 90): the inverse quote buys back at least 90. -/
theorem c1_input_never_underpays_witness :
    ∃ input out2,
      c1PoolA.calculate_input 2 90 = .ok input ∧
      c1PoolA.calculate_output 1 input = .ok out2 ∧
      90 ≤ out2 := by
  have h := c1_input_never_underpays c1PoolA 100 90 rfl (by decide)
    (by decide) (by decide) (by decide) (by decide) rfl (by decide)
  exact h

/-! ### C2 -/

theorem uadd_lt_lim (a b : Nat) : uadd a b < U256LIM :=
  Nat.mod_lt _ U256LIM_pos

theorem usub_lt_lim (a b : Nat) : usub a b < U256LIM :=
  Nat.mod_lt _ U256LIM_pos

theorem usub_uadd_one (y : Nat) (hy : y < U256LIM) : usub (uadd y 1) 1 = y := by
  unfold usub uadd
  by_cases h : y + 1 < U256LIM
  · rw [Nat.mod_eq_of_lt h,
      show U256LIM + (y + 1) - 1 = U256LIM + y from by omega,
      Nat.add_mod_left]
    exact Nat.mod_eq_of_lt hy
  · have hy1 : y + 1 = U256LIM := by omega
    rw [hy1, Nat.mod_self,
      show U256LIM + 0 - 1 = U256LIM - 1 from by omega]
    rw [Nat.mod_eq_of_lt (by omega)]
    omega

/-- Every `Ok` result of the `get_y` iteration satisfies: the invariant
`f` at the result is at least `xy`, or the decimals-normalized pool
invariant `k` at the result exceeds `xy` (the guard the code actually
checks); and `f` one below the result is under `xy`, or `f` at the result
equals `xy` exactly. -/
theorem getYAux_ok_postcondition (p : UniswapV2Pool) (x0 xy : Nat) :
    ∀ (fuel y ystar : Nat), y < U256LIM →
      UniswapV2Pool.getYAux p x0 xy fuel y = .ok ystar →
      (xy ≤ UniswapV2Pool.f x0 ystar ∨ xy < p.kfun x0 ystar) ∧
      (UniswapV2Pool.f x0 (usub ystar 1) < xy ∨
        UniswapV2Pool.f x0 ystar = xy) := by
  intro fuel
  induction fuel with
  | zero =>
    intro y ystar hy hok
    cases hok
  | succ fuel ih =>
    intro y ystar hy hok
    simp only [UniswapV2Pool.getYAux] at hok
    by_cases hk : UniswapV2Pool.f x0 y < xy
    · rw [if_pos hk] at hok
      by_cases hdy : umul (usub xy (UniswapV2Pool.f x0 y)) EXP18 /
          UniswapV2Pool.d x0 y = 0
      · rw [if_pos hdy] at hok
        by_cases hkxy : UniswapV2Pool.f x0 y = xy
        · rw [if_pos hkxy] at hok
          cases hok
          exact ⟨Or.inl (le_of_eq hkxy.symm), Or.inr hkxy⟩
        · rw [if_neg hkxy] at hok
          by_cases hsk : xy < p.kfun x0 (uadd y 1)
          · rw [if_pos hsk] at hok
            cases hok
            refine ⟨Or.inr hsk, Or.inl ?_⟩
            rw [usub_uadd_one y hy]
            exact hk
          · rw [if_neg hsk] at hok
            exact ih (uadd y 1) ystar (uadd_lt_lim y 1) hok
      · rw [if_neg hdy] at hok
        exact ih _ ystar (uadd_lt_lim _ _) hok
    · rw [if_neg hk] at hok
      by_cases hdy : umul (usub (UniswapV2Pool.f x0 y) xy) EXP18 /
          UniswapV2Pool.d x0 y = 0
      · rw [if_pos hdy] at hok
        by_cases hguard : UniswapV2Pool.f x0 y = xy ∨
            UniswapV2Pool.f x0 (usub y 1) < xy
        · rw [if_pos hguard] at hok
          cases hok
          refine ⟨Or.inl (le_of_not_lt hk), ?_⟩
          rcases hguard with hguard | hguard
          · exact Or.inr hguard
          · exact Or.inl hguard
        · rw [if_neg hguard] at hok
          exact ih _ ystar (usub_lt_lim _ _) hok
      · rw [if_neg hdy] at hok
        exact ih _ ystar (usub_lt_lim _ _) hok


/-- C2 counterexample: `get_y(1, 0, 6e17)` returns `Ok(6e17)` although
`f(1, 6e17 - 1) = 0` is not below `xy = 0` (minimality fails); and on a
0-decimal stable pool the `k`-guard admits a result with
`f(x0, y*) = xy - 1 < xy` (even the lower-bound half fails). -/
theorem c2_get_y_counterexample :
    (c2Pool18.get_y 1 0 600000000000000000 = .ok 600000000000000000 ∧
      ¬ (UniswapV2Pool.f 1 (600000000000000000 - 1) < 0)) ∧
    (c2Pool0.get_y 1264115433906158532 19484658809111547465
        2275216119781798972 = .ok 2275216119781798973 ∧
      UniswapV2Pool.f 1264115433906158532 2275216119781798973 <
        19484658809111547465) :=
  ⟨⟨rfl, by decide⟩, ⟨rfl, by decide⟩⟩

/-- C2 amended: whenever `get_y(x0, xy, y)` returns `Ok(y*)`, either
`f(x0, y*) ≥ xy` or the decimals-normalized pool invariant satisfies
`k(x0, y*) > xy` (the two coincide on 18-decimal pools), and either
`f(x0, y* - 1) < xy` or `f(x0, y*) = xy`; the loop performs at most 255
iterations, and with its fuel exhausted the result is the hard error
`!y`, never a value. -/
theorem c2_get_y_postcondition (p : UniswapV2Pool) (x0 xy y ystar : Nat)
    (hy : y < U256LIM)
    (hok : p.get_y x0 xy y = .ok ystar) :
    ((xy ≤ UniswapV2Pool.f x0 ystar ∨ xy < p.kfun x0 ystar) ∧
      (UniswapV2Pool.f x0 (usub ystar 1) < xy ∨
        UniswapV2Pool.f x0 ystar = xy)) ∧
    UniswapV2Pool.getYAux p x0 xy 0 y = .error "!y" :=
  ⟨getYAux_ok_postcondition p x0 xy 255 y ystar hy hok, rfl⟩

/-- Witness for C2 amended at the concrete convergent run
`get_y(1, 0, 6e17) = Ok(6e17)` on the 18-decimal stable pool. -/
theorem c2_get_y_postcondition_witness :
    ((((0:Nat) ≤ UniswapV2Pool.f 1 600000000000000000 ∨
        (0:Nat) < c2Pool18.kfun 1 600000000000000000) ∧
      (UniswapV2Pool.f 1 (usub 600000000000000000 1) < 0 ∨
        UniswapV2Pool.f 1 600000000000000000 = 0)) ∧
    UniswapV2Pool.getYAux c2Pool18 1 0 0 600000000000000000 =
      .error "!y") :=
  c2_get_y_postcondition c2Pool18 1 0 600000000000000000 600000000000000000
    (by decide) rfl

end ArbBot
